import Mathlib

/-!
Shallow embedding of the shader-web-background rendering engine:
`src/main/js/webgl-utils.js` (GlWrapper, ProgramWrapper hierarchy,
DoubleBuffer, WebGlStrategy) and the engine part of the main script
(`doShade` with its `animate` loop and `defaultUniforms`).

Machine state that matters to the verified claims is made explicit:
GL texture allocation is a counter plus an allocation record, the
animation loop is a step function from shared state and per-iteration
observations (client size, `performance.now()`) to a successor state and
a list of observable events, and the setup pipeline is a function of an
environment describing the WebGL binding's observable behaviour
(context availability, extensions, compile results, link status).
-/

set_option maxRecDepth 8000

/-! ## GL texture bookkeeping and DoubleBuffer (webgl-utils.js 285-368) -/

/-- GL texture bookkeeping: `gl.createTexture()` hands out fresh handles from
a counter, each `texImage2D` storage allocation is recorded as
`(handle, (width, height))`, and `gl.deleteTexture` collects handles.  The
tier-dependent pixel format and the filter/wrap parameters set by
`DoubleBuffer.createTexture` are not tracked; the dimensions are. -/
structure TexState where
  nextId : Nat
  allocs : List (Nat × Nat × Nat)
  deleted : List Nat
deriving DecidableEq

/-- `DoubleBuffer.createTexture(width, height)`: `gl.createTexture()` returns
a fresh handle and `strategy.setUpTexture(width, height)` allocates storage at
exactly the given size for it. -/
def createTexture (s : TexState) (width height : Nat) : Nat × TexState :=
  (s.nextId,
    { nextId := s.nextId + 1,
      allocs := (s.nextId, width, height) :: s.allocs,
      deleted := s.deleted })

/-- The fields of `DoubleBuffer`: the framebuffer object created once in the
constructor, and the two texture handles, `null` (`none`) until the first
`init`. -/
structure DoubleBuffer where
  fbo : Nat
  inTexture : Option Nat
  outTexture : Option Nat
deriving DecidableEq

/-- `DoubleBuffer.deleteTextures`: `gl.deleteTexture` on both handles
(`deleteTexture(null)` is silently ignored in WebGL). -/
def DoubleBuffer.deleteTextures (b : DoubleBuffer) (s : TexState) : TexState :=
  { s with deleted := (s.deleted ++ b.inTexture.toList) ++ b.outTexture.toList }

/-- `DoubleBuffer.init(width, height)`: delete the previously held textures,
then allocate two fresh ones and store them as `inTexture` and
`outTexture`. -/
def DoubleBuffer.init (b : DoubleBuffer) (s : TexState) (width height : Nat) :
    DoubleBuffer × TexState :=
  let s1 := b.deleteTextures s
  let p1 := createTexture s1 width height
  let p2 := createTexture p1.2 width height
  ({ b with inTexture := some p1.1, outTexture := some p2.1 }, p2.2)

/-- `DoubleBuffer.swapTextures`: exchange the two texture references through
a temporary; no other field is touched. -/
def DoubleBuffer.swapTextures (b : DoubleBuffer) : DoubleBuffer :=
  { b with outTexture := b.inTexture, inTexture := b.outTexture }

/-! ## JavaScript object semantics for the uniform tables -/

/-- Property write `o[k] = v` on a JS object modelled as an insertion-ordered
association list: overwrite in place when the key exists, append
otherwise. -/
def jsSet {α : Type} (o : List (String × α)) (k : String) (v : α) :
    List (String × α) :=
  if (o.lookup k).isSome then
    o.map (fun p => if p.1 = k then (k, v) else p)
  else o ++ [(k, v)]

/-- `Object.assign(target, src)`: copy every own property of `src` onto
`target` in order, returning the mutated target. -/
def jsAssign {α : Type} (target src : List (String × α)) : List (String × α) :=
  src.foldl (fun t p => jsSet t p.1 p.2) target

/-- `Object.assign(target, src)` where `src` may be undefined — the JS
expression `shaders[id] && shaders[id].uniforms`: a missing source is a
no-op. -/
def jsAssignOpt {α : Type} (target : List (String × α))
    (src : Option (List (String × α))) : List (String × α) :=
  match src with
  | none => target
  | some u => jsAssign target u

/-- The effective value of key `k` in a raw property list where a later entry
for the same key wins (JS object-literal semantics). -/
def lookupLast {α : Type} (o : List (String × α)) (k : String) : Option α :=
  o.reverse.lookup k

/-! ## The animation driver (main script, `doShade` lines 77-129) -/

/-- The mutable variables of `doShade` that the default uniform setters read:
the canvas backing size, `frame`, `time` (seconds, as a rational) and
`minDimension`. -/
structure AnimState where
  canvasW : Nat
  canvasH : Nat
  frame : Nat
  time : ℚ
  minDimension : Nat
deriving DecidableEq

/-- External observations of one `animate` iteration: the canvas client
(layout) size and the monotonic clock reading `performance.now()` in
milliseconds. -/
structure IterInput where
  clientW : Nat
  clientH : Nat
  now : ℚ
deriving DecidableEq

/-- `isResized(canvas)`: the backing pixel size differs from the client
size. -/
def isResized (s : AnimState) (inp : IterInput) : Bool :=
  decide (s.canvasW ≠ inp.clientW) || decide (s.canvasH ≠ inp.clientH)

/-- Observable events of a run, emitted by program setup (`link`) and by the
animation loop.  A `drawPass` event records the shared state that the pass's
uniform setters observe during that draw. -/
inductive Event where
  | updSize (w h : Nat)
  | updViewport
  | setMinDim (d : Nat)
  | resetFrame
  | initPass (i : Nat) (w h : Nat)
  | drawPass (i : Nat) (s : AnimState)
  | incFrame
  | afterFramePass (i : Nat)
  | link (id : String)
deriving DecidableEq

/-- Whether an event is a pass draw. -/
def Event.isDraw : Event → Bool
  | .drawPass _ _ => true
  | _ => false

/-- Shared state after the `time` update and the resize branch of one
`animate` iteration: exactly the values every pass's uniform setters read
during that iteration's draws.  On resize `updateSize` copies the client
size into the backing size, `minDimension` becomes their minimum and
`frame` is reset to 0. -/
def preDrawState (s : AnimState) (inp : IterInput) : AnimState :=
  if isResized s inp then
    { canvasW := inp.clientW, canvasH := inp.clientH, frame := 0,
      time := inp.now / 1000, minDimension := min inp.clientW inp.clientH }
  else { s with time := inp.now / 1000 }

/-- Events of the resize branch of `animate`, in execution order:
`updateSize`, `glWrapper.updateViewportSize()`, the `minDimension` write,
the `frame = 0` write, then `program.init(width, height)` on every pass in
list order. -/
def resizeEvents (n : Nat) (inp : IterInput) : List Event :=
  [Event.updSize inp.clientW inp.clientH, Event.updViewport,
    Event.setMinDim (min inp.clientW inp.clientH), Event.resetFrame]
  ++ (List.range n).map (fun i => Event.initPass i inp.clientW inp.clientH)

/-- One iteration of `animate` over `n` passes: the successor state and the
events in execution order — the resize branch if a resize is detected, the
draws in list order, the `frame++` increment, then `afterFrame` on every
pass in list order. -/
def animateStep (n : Nat) (s : AnimState) (inp : IterInput) :
    AnimState × List Event :=
  let sd := preDrawState s inp
  (( { sd with frame := sd.frame + 1 } : AnimState),
    (if isResized s inp then resizeEvents n inp else [])
      ++ ((List.range n).map (fun i => Event.drawPass i sd)
        ++ ([Event.incFrame]
          ++ (List.range n).map Event.afterFramePass)))

/-- The shared state at the start of `animate`: `doShade` declares
`frame = 0`, `time = 0`, `minDimension = 0` and forces a resize by setting
`canvas.width = 0`, `canvas.height = 0` just before the first iteration. -/
def initialAnimState : AnimState :=
  { canvasW := 0, canvasH := 0, frame := 0, time := 0, minDimension := 0 }

/-- Shared state at the start of iteration `k` of `animate`, under the
per-iteration observation schedule `inp`. -/
def stateAt (n : Nat) (inp : Nat → IterInput) : Nat → AnimState
  | 0 => initialAnimState
  | k + 1 => (animateStep n (stateAt n inp k) (inp k)).1

/-- The events of iteration `k` of `animate`. -/
def iterTrace (n : Nat) (inp : Nat → IterInput) (k : Nat) : List Event :=
  (animateStep n (stateAt n inp k) (inp k)).2

/-! ## The default uniform setters (main script, lines 81-86) -/

/-- A uniform setter: one of the four built-ins of `defaultUniforms`, or an
opaque caller-supplied function (identified by a tag). -/
inductive Setter where
  | builtinR | builtinT | builtinF | builtinD
  | user (tag : Nat)
deriving DecidableEq

/-- A value uploaded by a uniform setter. -/
inductive UniformValue where
  | vec2f (x y : Nat)
  | float1 (x : ℚ)
  | int1 (x : Nat)
  | userValue (tag : Nat)
deriving DecidableEq

/-- What each setter uploads from the shared state it closes over:
`R` uploads `uniform2f(canvas.width, canvas.height)`, `T` uploads
`uniform1f(time)`, `F` uploads `uniform1i(frame)`, `D` uploads
`uniform1f(minDimension)`; a user setter's upload is opaque. -/
def uploadOf : Setter → AnimState → UniformValue
  | .builtinR, s => .vec2f s.canvasW s.canvasH
  | .builtinT, s => .float1 s.time
  | .builtinF, s => .int1 s.frame
  | .builtinD, s => .float1 (s.minDimension : ℚ)
  | .user t, _ => .userValue t

/-- The `defaultUniforms` object: one table with the four built-in entries,
created once per `doShade` run and mutated in place by the per-pass
`Object.assign`. -/
def defaultUniforms : List (String × Setter) :=
  [("R", Setter.builtinR), ("T", Setter.builtinT),
    ("F", Setter.builtinF), ("D", Setter.builtinD)]

/-! ## Setup pipeline: GlWrapper construction and program building
(webgl-utils.js 5-177, main script lines 63-104) -/

/-- A shader stage. -/
inductive ShaderType where
  | vertexStage | fragmentStage
deriving DecidableEq

/-- Observable behaviour of the WebGL binding consumed during setup: which
context types `canvas.getContext` can produce, which extensions
`gl.getExtension` finds, the compile status and info log of each shader
source, and the link status of each source pair.  `linkStatus` is part of
the environment so that a link failure can be spoken about; `initProgram`
below never consults it, because the source never queries
`gl.LINK_STATUS`. -/
structure GlEnv where
  webgl2 : Bool
  webgl1 : Bool
  extensions : List String
  compileOk : ShaderType → String → Bool
  infoLog : ShaderType → String → String
  linkStatus : String → String → Bool

/-- An error thrown through `glErrorFactory` or `check`. -/
structure GlErr where
  message : String
deriving DecidableEq

/-- The fixed vertex shader source of the main script. -/
def VERTEX_SHADER : String :=
  "attribute vec2 V;void main()\x7bgl_Position=vec4(V,0,1);\x7d"

/-- The fixed vertex attribute name of the main script. -/
def VERTEX_ATTRIBUTE : String := "V"

/-- `GlWrapper.loadShader`: compile one stage; on failure, delete the shader
and throw an error whose message is the fixed prefix, the pass id, and the
driver-provided info log, concatenated. -/
def loadShader (env : GlEnv) (id : String) (ty : ShaderType) (source : String) :
    Except GlErr Unit :=
  if env.compileOk ty source then Except.ok ()
  else Except.error
    ⟨"Cannot compile shader - " ++ id ++ ": " ++ env.infoLog ty source⟩

/-- A program as returned by `initProgram`: the attached shader sources. -/
structure Program where
  vertexSource : String
  fragmentSource : String
deriving DecidableEq

/-- `GlWrapper.initProgram`: compile the vertex shader, then the fragment
shader — either failure aborts before `linkProgram` — then call
`gl.linkProgram` (the `link` event) and return the program.  Its link
status is never checked. -/
def initProgram (env : GlEnv) (id vertexSource fragmentSource : String) :
    List Event × Except GlErr Program :=
  match loadShader env id ShaderType.vertexStage vertexSource with
  | .error e => ([], .error e)
  | .ok _ =>
    match loadShader env id ShaderType.fragmentStage fragmentSource with
    | .error e => ([], .error e)
    | .ok _ => ([Event.link id], .ok ⟨vertexSource, fragmentSource⟩)

/-- The two context capability tiers. -/
inductive CtxKind where
  | ctx2 | ctx1
deriving DecidableEq

/-- `canvas.getContext("webgl2", a) || canvas.getContext("webgl", a)`,
passed through `check`: failure throws the configuration message naming the
unsupported context and the canvas. -/
def getGlContext (env : GlEnv) (canvasName : String) : Except GlErr CtxKind :=
  if env.webgl2 then .ok .ctx2
  else if env.webgl1 then .ok .ctx1
  else .error
    ⟨"webgl context not supported on supplied canvas element: " ++ canvasName⟩

/-- `WebGlStrategy.getExtension`:
`check(gl.getExtension(e), e + " extension is not supported")`. -/
def getExtensionChecked (env : GlEnv) (name : String) : Except GlErr Unit :=
  if name ∈ env.extensions then .ok ()
  else .error ⟨name ++ " extension is not supported"⟩

/-- Strategy construction: `WebGl2Strategy` requires
`EXT_color_buffer_float`; `WebGl1Strategy` requires
`OES_texture_half_float` and then `OES_texture_half_float_linear`, in that
order. -/
def mkStrategy (env : GlEnv) : CtxKind → Except GlErr Unit
  | .ctx2 => getExtensionChecked env "EXT_color_buffer_float"
  | .ctx1 =>
    match getExtensionChecked env "OES_texture_half_float" with
    | .error e => .error e
    | .ok _ => getExtensionChecked env "OES_texture_half_float_linear"

/-- The `GlWrapper` constructor: obtain a context (preferring webgl2), then
build the matching strategy, whose constructor performs the extension
checks; the quad upload that follows has no failure mode. -/
def glWrapperConstruct (env : GlEnv) (canvasName : String) :
    Except GlErr CtxKind :=
  match getGlContext env canvasName with
  | .error e => .error e
  | .ok k =>
    match mkStrategy env k with
    | .error e => .error e
    | .ok _ => .ok k

/-- One pass wrapper as built by `doShade` and `GlWrapper.wrapProgram`: the
pass id, the returned program, the uniform table object handed to the
wrapper's constructor (a snapshot of the shared, mutated `defaultUniforms`
object), and the buffered flag. -/
structure Pass where
  id : String
  program : Program
  uniformsArg : List (String × Setter)
  buffered : Bool
deriving DecidableEq

/-- The body of `doShade`'s `sourceIds.map`, pass by pass: `initProgram`
(a failure propagates), then `Object.assign(defaultUniforms, ...)` merging
this pass's user uniforms into the shared table in place, then
`buffered = (index < imageIndex)`, then `wrapProgram`.  The mutated table
is threaded to the next pass. -/
def buildPassesGo (env : GlEnv)
    (shaders : String → Option (List (String × Setter)))
    (imageIndex : Nat) :
    Nat → List (String × Setter) → List (String × String) →
    List Event × Except GlErr (List Pass)
  | _, _, [] => ([], Except.ok [])
  | index, defaults, (id, fragmentSource) :: rest =>
    match initProgram env id VERTEX_SHADER fragmentSource with
    | (evs, .error e) => (evs, .error e)
    | (evs, .ok prog) =>
      let merged := jsAssignOpt defaults (shaders id)
      let pass : Pass := ⟨id, prog, merged, decide (index < imageIndex)⟩
      match buildPassesGo env shaders imageIndex (index + 1) merged rest with
      | (evs2, .error e) => (evs ++ evs2, .error e)
      | (evs2, .ok passes) => (evs ++ evs2, .ok (pass :: passes))

/-- Lines 88-100 of the main script: map over the ordered source list with
`imageIndex = sourceIds.length - 1`, threading the shared
`defaultUniforms` object. -/
def buildPasses (env : GlEnv)
    (shaders : String → Option (List (String × Setter)))
    (sources : List (String × String)) :
    List Event × Except GlErr (List Pass) :=
  buildPassesGo env shaders (sources.length - 1) 0 defaultUniforms sources

/-- `animate` iterated over a finite schedule of observations from the
forced-resize initial state, concatenating every iteration's events. -/
def animRunEvents (n : Nat) (inp : Nat → IterInput) (iters : Nat) :
    List Event :=
  ((List.range iters).map (iterTrace n inp)).flatten

/-- `doShade`: construct the `GlWrapper`, build every pass eagerly, then run
`animate`.  Any setup failure propagates to the caller before the loop
starts, so the event trace of a failed run contains no animation
events. -/
def doShadeRun (env : GlEnv) (canvasName : String)
    (shaders : String → Option (List (String × Setter)))
    (sources : List (String × String))
    (inp : Nat → IterInput) (iters : Nat) :
    List Event × Except GlErr Unit :=
  match glWrapperConstruct env canvasName with
  | .error e => ([], .error e)
  | .ok _ =>
    match buildPasses env shaders sources with
    | (evs, .error e) => (evs, .error e)
    | (evs, .ok passes) =>
      (evs ++ animRunEvents passes.length inp iters, .ok ())

/-- Both stages of one pass compile: the shared vertex shader and the
pass's fragment source. -/
def passCompileOk (env : GlEnv) (fragmentSource : String) : Bool :=
  env.compileOk ShaderType.vertexStage VERTEX_SHADER
    && env.compileOk ShaderType.fragmentStage fragmentSource

/-! ## Rank of events within one `animate` iteration, and concrete inputs -/

/-- The phase an event belongs to inside one `animate` iteration; later
phases execute strictly later. -/
def blockOf : Event → Nat
  | .updSize _ _ => 0
  | .updViewport => 1
  | .setMinDim _ => 2
  | .resetFrame => 3
  | .initPass _ _ _ => 4
  | .drawPass _ _ => 5
  | .incFrame => 6
  | .afterFramePass _ => 7
  | .link _ => 8

/-- For per-pass events, the pass index; the loops run in list order. -/
def idxOf : Event → Nat
  | .initPass i _ _ => i
  | .drawPass i _ => i
  | .afterFramePass i => i
  | _ => 0

/-- Event `a` executes no later than `b` within one iteration. -/
def evLE (a b : Event) : Prop :=
  blockOf a < blockOf b ∨ (blockOf a = blockOf b ∧ idxOf a ≤ idxOf b)

/-- Event `a` executes strictly before `b` within one iteration. -/
def evLT (a b : Event) : Prop :=
  blockOf a < blockOf b ∨ (blockOf a = blockOf b ∧ idxOf a < idxOf b)

/-- The chain of `Object.assign(defaultUniforms, shaders[id].uniforms)`
merges over a list of pass ids, starting from a given table. -/
def foldAssign (shaders : String → Option (List (String × Setter)))
    (defaults : List (String × Setter)) (ids : List String) :
    List (String × Setter) :=
  ids.foldl (fun acc id => jsAssignOpt acc (shaders id)) defaults

/-- A constant observation schedule: client size 100 by 100,
`performance.now()` frozen at 2000 ms. -/
def obsA : Nat → IterInput := fun _ => ⟨100, 100, 2000⟩

/-- A binding where everything succeeds except linking. -/
def envLinkFail : GlEnv :=
  ⟨true, true, ["EXT_color_buffer_float"],
    fun _ _ => true, fun _ _ => "log", fun _ _ => false⟩

/-- A binding where everything succeeds. -/
def envAllOk : GlEnv :=
  ⟨true, true, ["EXT_color_buffer_float"],
    fun _ _ => true, fun _ _ => "log", fun _ _ => true⟩

/-- A binding where fragment shaders fail to compile (the vertex stage
compiles). -/
def envFragFail : GlEnv :=
  ⟨true, true, ["EXT_color_buffer_float"],
    fun ty _ => ty == ShaderType.vertexStage, fun _ _ => "bad fragment",
    fun _ _ => true⟩

/-- A binding with no obtainable context. -/
def envNoCtx : GlEnv :=
  ⟨false, false, [], fun _ _ => true, fun _ _ => "log", fun _ _ => true⟩

/-- A two-pass ordered source mapping. -/
def srcTwo : List (String × String) := [("a", "fa"), ("image", "fimg")]

/-- No per-pass configuration records. -/
def noShaders : String → Option (List (String × Setter)) := fun _ => none

/-- A configuration giving pass "a" one user setter named "U". -/
def shadersU : String → Option (List (String × Setter)) :=
  fun id => if id = "a" then some [("U", Setter.user 7)] else none

/-! ## Theorems -/

theorem swapTextures_swapTextures (b : DoubleBuffer) :
    b.swapTextures.swapTextures = b := by
  cases b; rfl

theorem swapIter_cases (b : DoubleBuffer) (m : Nat) :
    DoubleBuffer.swapTextures^[m] b = b ∨
      DoubleBuffer.swapTextures^[m] b = b.swapTextures := by
  induction m with
  | zero => exact Or.inl rfl
  | succ k ih =>
    rw [Function.iterate_succ_apply']
    rcases ih with h | h <;> rw [h]
    · exact Or.inr rfl
    · exact Or.inl (swapTextures_swapTextures b)

/-- C3: for every Feedback Buffer state, applying `swapTextures` twice is the
identity — the `inTexture` (read) and `outTexture` (write) references are
restored — and a single swap changes no field other than those two (the only
other field is the framebuffer object `fbo`, which is untouched). -/
theorem c3_swapTextures_involution (b : DoubleBuffer) :
    b.swapTextures.swapTextures = b ∧ b.swapTextures.fbo = b.fbo := by
  cases b; exact ⟨rfl, rfl⟩

/-- C4: after `init(width, height)` on a Feedback Buffer, the read and write
handles are two distinct non-null textures, each recorded as allocated at
exactly `width × height`, and after any number of subsequent swaps the two
handles remain non-null and distinct. -/
theorem c4_init_distinct_sized (b : DoubleBuffer) (s : TexState)
    (width height : Nat) :
    ∃ a c,
      (b.init s width height).1.inTexture = some a ∧
      (b.init s width height).1.outTexture = some c ∧
      a ≠ c ∧
      (b.init s width height).2.allocs.lookup a = some (width, height) ∧
      (b.init s width height).2.allocs.lookup c = some (width, height) ∧
      ∀ m : Nat,
        (DoubleBuffer.swapTextures^[m] (b.init s width height).1).inTexture ≠
          (DoubleBuffer.swapTextures^[m] (b.init s width height).1).outTexture ∧
        ((DoubleBuffer.swapTextures^[m]
            (b.init s width height).1).inTexture).isSome = true ∧
        ((DoubleBuffer.swapTextures^[m]
            (b.init s width height).1).outTexture).isSome = true := by
  refine ⟨s.nextId, s.nextId + 1, rfl, rfl, by omega, ?_, ?_, ?_⟩
  · show List.lookup s.nextId
      ((s.nextId + 1, width, height) :: (s.nextId, width, height)
        :: (b.deleteTextures s).allocs) = some (width, height)
    have h1 : (s.nextId == s.nextId + 1) = false := by simp
    simp [List.lookup, h1]
  · show List.lookup (s.nextId + 1)
      ((s.nextId + 1, width, height) :: (s.nextId, width, height)
        :: (b.deleteTextures s).allocs) = some (width, height)
    simp [List.lookup]
  · intro m
    rcases swapIter_cases (b.init s width height).1 m with h | h <;> rw [h]
    · refine ⟨?_, rfl, rfl⟩
      show (some s.nextId : Option Nat) ≠ some (s.nextId + 1)
      simp
    · refine ⟨?_, rfl, rfl⟩
      show (some (s.nextId + 1) : Option Nat) ≠ some s.nextId
      simp

theorem pairwise_get_lt {t : List Event} (hp : t.Pairwise evLE)
    {p q : Nat} {e f : Event} (he : t.get? p = some e) (hf : t.get? q = some f)
    (hlt : evLT e f) : p < q := by
  rcases List.get?_eq_some.mp he with ⟨hpl, hpe⟩
  rcases List.get?_eq_some.mp hf with ⟨hql, hqf⟩
  rcases lt_trichotomy p q with h | h | h
  · exact h
  · exfalso
    subst h
    rw [he] at hf
    injection hf with h2
    subst h2
    simp only [evLT] at hlt
    rcases hlt with h3 | ⟨h3, h4⟩ <;> omega
  · exfalso
    have hle := List.pairwise_iff_get.mp hp ⟨q, hql⟩ ⟨p, hpl⟩ (by simpa using h)
    rw [hqf, hpe] at hle
    simp only [evLE] at hle
    simp only [evLT] at hlt
    rcases hle with h3 | ⟨h3, h4⟩ <;> rcases hlt with h5 | ⟨h5, h6⟩ <;> omega

theorem animateStep_pairwise (n : Nat) (s : AnimState) (inp : IterInput) :
    ((animateStep n s inp).2).Pairwise evLE := by
  have hD : ((List.range n).map
      (fun i => Event.drawPass i (preDrawState s inp))).Pairwise evLE :=
    List.Pairwise.map _ (fun a b hab => Or.inr ⟨rfl, Nat.le_of_lt hab⟩)
      (List.pairwise_lt_range n)
  have hA : ((List.range n).map Event.afterFramePass).Pairwise evLE :=
    List.Pairwise.map _ (fun a b hab => Or.inr ⟨rfl, Nat.le_of_lt hab⟩)
      (List.pairwise_lt_range n)
  have hRest : (((List.range n).map
      (fun i => Event.drawPass i (preDrawState s inp)))
        ++ ([Event.incFrame]
          ++ (List.range n).map Event.afterFramePass)).Pairwise evLE := by
    rw [List.pairwise_append]
    refine ⟨hD, ?_, ?_⟩
    · rw [List.pairwise_append]
      refine ⟨by simp, hA, ?_⟩
      intro a ha b hb
      rcases List.mem_singleton.mp ha with rfl
      rcases List.mem_map.mp hb with ⟨j, hj, rfl⟩
      exact Or.inl (by simp [blockOf])
    · intro a ha b hb
      rcases List.mem_map.mp ha with ⟨i, hi, rfl⟩
      rcases List.mem_append.mp hb with hb | hb
      · rcases List.mem_singleton.mp hb with rfl
        exact Or.inl (by simp [blockOf])
      · rcases List.mem_map.mp hb with ⟨j, hj, rfl⟩
        exact Or.inl (by simp [blockOf])
  show ((if isResized s inp then resizeEvents n inp else [])
      ++ (((List.range n).map (fun i => Event.drawPass i (preDrawState s inp)))
        ++ ([Event.incFrame]
          ++ (List.range n).map Event.afterFramePass))).Pairwise evLE
  rw [List.pairwise_append]
  refine ⟨?_, hRest, ?_⟩
  · split
    · unfold resizeEvents
      rw [List.pairwise_append]
      refine ⟨?_, ?_, ?_⟩
      · norm_num [List.pairwise_cons, evLE, blockOf, idxOf]
      · exact List.Pairwise.map _ (fun a b hab => Or.inr ⟨rfl, Nat.le_of_lt hab⟩)
          (List.pairwise_lt_range n)
      · intro a ha b hb
        rcases List.mem_map.mp hb with ⟨i, hi, rfl⟩
        fin_cases ha <;> exact Or.inl (by simp [blockOf])
    · exact List.Pairwise.nil
  · intro a ha b hb
    have h1 : blockOf a ≤ 4 := by
      split at ha
      · unfold resizeEvents at ha
        rcases List.mem_append.mp ha with ha | ha
        · fin_cases ha <;> simp [blockOf]
        · rcases List.mem_map.mp ha with ⟨i, hi, rfl⟩; simp [blockOf]
      · simp at ha
    have h2 : 5 ≤ blockOf b := by
      rcases List.mem_append.mp hb with hb | hb
      · rcases List.mem_map.mp hb with ⟨i, hi, rfl⟩; simp [blockOf]
      · rcases List.mem_append.mp hb with hb | hb
        · rcases List.mem_singleton.mp hb with rfl; simp [blockOf]
        · rcases List.mem_map.mp hb with ⟨j, hj, rfl⟩; simp [blockOf]
    exact Or.inl (by omega)

theorem mem_animate_drawPass {n : Nat} {s : AnimState} {inp : IterInput}
    {i : Nat} {s0 : AnimState} :
    Event.drawPass i s0 ∈ (animateStep n s inp).2 ↔
      i < n ∧ s0 = preDrawState s inp := by
  show Event.drawPass i s0 ∈
    (if isResized s inp then resizeEvents n inp else [])
      ++ (((List.range n).map (fun j => Event.drawPass j (preDrawState s inp)))
        ++ ([Event.incFrame]
          ++ (List.range n).map Event.afterFramePass)) ↔ _
  cases hc : isResized s inp <;>
    simp [hc, resizeEvents, List.mem_append, List.mem_map, List.mem_range,
      eq_comm] <;>
  · constructor
    · rintro ⟨a, ha, rfl, h2⟩
      exact ⟨ha, h2⟩
    · rintro ⟨h1, h2⟩
      exact ⟨i, h1, rfl, h2⟩

theorem mem_animate_initPass {n : Nat} {s : AnimState} {inp : IterInput}
    {i w h : Nat} :
    Event.initPass i w h ∈ (animateStep n s inp).2 ↔
      isResized s inp = true ∧ i < n ∧ w = inp.clientW ∧ h = inp.clientH := by
  show Event.initPass i w h ∈
    (if isResized s inp then resizeEvents n inp else [])
      ++ (((List.range n).map (fun j => Event.drawPass j (preDrawState s inp)))
        ++ ([Event.incFrame]
          ++ (List.range n).map Event.afterFramePass)) ↔ _
  cases hc : isResized s inp <;>
    simp [hc, resizeEvents, List.mem_append, List.mem_map, List.mem_range,
      eq_comm]
  constructor
  · rintro ⟨a, ha, rfl, h2⟩
    exact ⟨ha, h2⟩
  · rintro ⟨h1, h2⟩
    exact ⟨i, h1, rfl, h2⟩

theorem mem_animate_afterFrame {n : Nat} {s : AnimState} {inp : IterInput}
    {i : Nat} :
    Event.afterFramePass i ∈ (animateStep n s inp).2 ↔ i < n := by
  show Event.afterFramePass i ∈
    (if isResized s inp then resizeEvents n inp else [])
      ++ (((List.range n).map (fun j => Event.drawPass j (preDrawState s inp)))
        ++ ([Event.incFrame]
          ++ (List.range n).map Event.afterFramePass)) ↔ _
  cases hc : isResized s inp <;>
    simp [hc, resizeEvents, List.mem_append, List.mem_map, List.mem_range]

theorem mem_animate_updViewport {n : Nat} {s : AnimState} {inp : IterInput} :
    Event.updViewport ∈ (animateStep n s inp).2 ↔ isResized s inp = true := by
  show Event.updViewport ∈
    (if isResized s inp then resizeEvents n inp else [])
      ++ (((List.range n).map (fun j => Event.drawPass j (preDrawState s inp)))
        ++ ([Event.incFrame]
          ++ (List.range n).map Event.afterFramePass)) ↔ _
  cases hc : isResized s inp <;>
    simp [hc, resizeEvents, List.mem_append, List.mem_map, List.mem_range]

theorem mem_animate_resetFrame {n : Nat} {s : AnimState} {inp : IterInput} :
    Event.resetFrame ∈ (animateStep n s inp).2 ↔ isResized s inp = true := by
  show Event.resetFrame ∈
    (if isResized s inp then resizeEvents n inp else [])
      ++ (((List.range n).map (fun j => Event.drawPass j (preDrawState s inp)))
        ++ ([Event.incFrame]
          ++ (List.range n).map Event.afterFramePass)) ↔ _
  cases hc : isResized s inp <;>
    simp [hc, resizeEvents, List.mem_append, List.mem_map, List.mem_range]

/-- C1: in every `animate` iteration over any pass list — if a resize is
detected, the viewport update, the frame-counter reset and `init` on every
pass happen in that order and all before any pass's draw; draw is called on
every pass in list order; and `afterFrame` is called on every pass in list
order strictly after every draw of the iteration, never interleaved with
draws. -/
theorem c1_animate_phase_order (n : Nat) (s : AnimState) (inp : IterInput) :
    (isResized s inp = true →
      (∀ i, i < n →
        Event.initPass i inp.clientW inp.clientH ∈ (animateStep n s inp).2) ∧
      (∀ p q, ((animateStep n s inp).2).get? p = some Event.updViewport →
        ((animateStep n s inp).2).get? q = some Event.resetFrame → p < q) ∧
      (∀ p q i w h,
        ((animateStep n s inp).2).get? p = some Event.resetFrame →
        ((animateStep n s inp).2).get? q = some (Event.initPass i w h) →
        p < q) ∧
      (∀ p q i w h j s0,
        ((animateStep n s inp).2).get? p = some (Event.initPass i w h) →
        ((animateStep n s inp).2).get? q = some (Event.drawPass j s0) →
        p < q)) ∧
    (∀ i, i < n → ∃ s0, Event.drawPass i s0 ∈ (animateStep n s inp).2) ∧
    (∀ p q i si j sj,
      ((animateStep n s inp).2).get? p = some (Event.drawPass i si) →
      ((animateStep n s inp).2).get? q = some (Event.drawPass j sj) →
      i < j → p < q) ∧
    (∀ i, i < n → Event.afterFramePass i ∈ (animateStep n s inp).2) ∧
    (∀ p q i si j,
      ((animateStep n s inp).2).get? p = some (Event.drawPass i si) →
      ((animateStep n s inp).2).get? q = some (Event.afterFramePass j) →
      p < q) ∧
    (∀ p q i j,
      ((animateStep n s inp).2).get? p = some (Event.afterFramePass i) →
      ((animateStep n s inp).2).get? q = some (Event.afterFramePass j) →
      i < j → p < q) := by
  have hp := animateStep_pairwise n s inp
  refine ⟨?_, ?_, ?_, ?_, ?_, ?_⟩
  · intro hres
    refine ⟨?_, ?_, ?_, ?_⟩
    · intro i hi
      exact mem_animate_initPass.mpr ⟨hres, hi, rfl, rfl⟩
    · intro p q h1 h2
      exact pairwise_get_lt hp h1 h2 (Or.inl (by norm_num [blockOf]))
    · intro p q i w h h1 h2
      exact pairwise_get_lt hp h1 h2 (Or.inl (by norm_num [blockOf]))
    · intro p q i w h j s0 h1 h2
      exact pairwise_get_lt hp h1 h2 (Or.inl (by norm_num [blockOf]))
  · intro i hi
    exact ⟨preDrawState s inp, mem_animate_drawPass.mpr ⟨hi, rfl⟩⟩
  · intro p q i si j sj h1 h2 hij
    exact pairwise_get_lt hp h1 h2 (Or.inr ⟨rfl, hij⟩)
  · intro i hi
    exact mem_animate_afterFrame.mpr hi
  · intro p q i si j h1 h2
    exact pairwise_get_lt hp h1 h2 (Or.inl (by norm_num [blockOf]))
  · intro p q i j h1 h2 hij
    exact pairwise_get_lt hp h1 h2 (Or.inr ⟨rfl, hij⟩)

/-- C2: the value uploaded by the built-in uniform setter `F` is 0 on every
pass's draw of a resize iteration (and the initial iteration is a resize
whenever the client size is nonzero, because `doShade` forces
`canvas.width = canvas.height = 0`); on a following iteration without a
resize the uploaded value is exactly 1 greater than on the previous
iteration. -/
theorem c2_frame_uniform (n : Nat) (inp : Nat → IterInput) (k : Nat) :
    (isResized (stateAt n inp k) (inp k) = true →
      ∀ i s0, Event.drawPass i s0 ∈ iterTrace n inp k →
        uploadOf Setter.builtinF s0 = UniformValue.int1 0) ∧
    (isResized (stateAt n inp (k + 1)) (inp (k + 1)) = false →
      ∀ i s0 j s1, Event.drawPass i s0 ∈ iterTrace n inp k →
        Event.drawPass j s1 ∈ iterTrace n inp (k + 1) →
        uploadOf Setter.builtinF s1 = UniformValue.int1 (s0.frame + 1)) ∧
    ((inp 0).clientW ≠ 0 ∨ (inp 0).clientH ≠ 0 →
      isResized (stateAt n inp 0) (inp 0) = true) := by
  refine ⟨?_, ?_, ?_⟩
  · intro hres i s0 hmem
    have h1 := (mem_animate_drawPass.mp hmem).2
    subst h1
    simp [uploadOf, preDrawState, hres]
  · intro hres i s0 j s1 h0 h1
    have e0 := (mem_animate_drawPass.mp h0).2
    have e1 := (mem_animate_drawPass.mp h1).2
    subst e0
    subst e1
    have hfr : (preDrawState (stateAt n inp (k + 1)) (inp (k + 1))).frame =
        (stateAt n inp (k + 1)).frame := by
      simp [preDrawState, hres]
    have hfr2 : (stateAt n inp (k + 1)).frame =
        (preDrawState (stateAt n inp k) (inp k)).frame + 1 := by
      simp [stateAt, animateStep]
    simp [uploadOf, hfr, hfr2]
  · intro h0
    show isResized (stateAt n inp 0) (inp 0) = true
    rcases h0 with h | h <;>
      simp [stateAt, isResized, initialAnimState] <;> omega

/-- C9 counterexample: with the driver started at clock reading 2000 ms, the
value uploaded by `T` at the driver's first iteration is 2 seconds —
`performance.now() / 1000`, the absolute clock reading — while the seconds
elapsed since the driver started are 0.  The claim that `T` is 0-based at
the first iteration is therefore false on the code. -/
theorem c9_counterexample_absolute_clock :
    Event.drawPass 0 ⟨100, 100, 0, 2, 100⟩ ∈ iterTrace 1 obsA 0 ∧
    uploadOf Setter.builtinT ⟨100, 100, 0, 2, 100⟩ = UniformValue.float1 2 ∧
    ((obsA 0).now - (obsA 0).now) / 1000 = 0 ∧ (2 : ℚ) ≠ 0 := by
  have hstate : preDrawState (stateAt 1 obsA 0) (obsA 0) =
      ⟨100, 100, 0, 2, 100⟩ := by
    simp [preDrawState, stateAt, initialAnimState, isResized, obsA]
    norm_num
  exact ⟨mem_animate_drawPass.mpr ⟨Nat.one_pos, hstate.symm⟩, rfl,
    by norm_num [obsA], by norm_num⟩

/-- C9 amended: at every iteration the value uploaded by the built-in
uniform setter `T` is the monotonic clock's absolute reading divided by
1000 — seconds since the clock's time origin, not since the driver
started. -/
theorem c9_amended_time_absolute (n : Nat) (inp : Nat → IterInput) (k : Nat) :
    ∀ i s0, Event.drawPass i s0 ∈ iterTrace n inp k →
      uploadOf Setter.builtinT s0 = UniformValue.float1 ((inp k).now / 1000) := by
  intro i s0 hmem
  have h1 := (mem_animate_drawPass.mp hmem).2
  subst h1
  have ht : (preDrawState (stateAt n inp k) (inp k)).time =
      (inp k).now / 1000 := by
    unfold preDrawState
    split <;> rfl
  simp [uploadOf, ht]

theorem c9_amended_time_absolute_witness :
    uploadOf Setter.builtinT ⟨100, 100, 1, 2, 100⟩ =
      UniformValue.float1 ((obsA 1).now / 1000) :=
  c9_amended_time_absolute 1 obsA 1 0 ⟨100, 100, 1, 2, 100⟩
    (mem_animate_drawPass.mpr ⟨Nat.one_pos, by
      simp [preDrawState, stateAt, animateStep, initialAnimState, isResized,
        obsA]
      norm_num⟩)

theorem lookup_cons_hit {α : Type} (pk : String) (pv : α)
    (rest : List (String × α)) :
    List.lookup pk ((pk, pv) :: rest) = some pv := by
  simp [List.lookup]

theorem lookup_cons_skip {α : Type} {k2 pk : String} (h : k2 ≠ pk) (pv : α)
    (rest : List (String × α)) :
    List.lookup k2 ((pk, pv) :: rest) = List.lookup k2 rest := by
  have hb : (k2 == pk) = false := beq_eq_false_iff_ne.mpr h
  simp [List.lookup, hb]

theorem lookup_map_overwrite {α : Type} (o : List (String × α)) (k : String)
    (v : α) (k2 : String) :
    (o.map (fun p => if p.1 = k then (k, v) else p)).lookup k2 =
      if k2 = k then (if (o.lookup k).isSome then some v else none)
      else o.lookup k2 := by
  induction o with
  | nil => simp [List.lookup]
  | cons p rest ih =>
    obtain ⟨pk, pv⟩ := p
    simp only [List.map_cons]
    by_cases h1 : pk = k
    · rw [if_pos (show (pk, pv).1 = k from h1)]
      subst h1
      by_cases h2 : k2 = pk
      · subst h2
        simp [lookup_cons_hit, ih]
      · rw [lookup_cons_skip h2, lookup_cons_skip h2, ih]
        simp [h2]
    · rw [if_neg (show ¬(pk, pv).1 = k from h1)]
      by_cases h2 : k2 = pk
      · subst h2
        have h3 : ¬k2 = k := fun hx => h1 hx
        rw [lookup_cons_hit, lookup_cons_hit, if_neg h3]
      · rw [lookup_cons_skip h2, lookup_cons_skip h2, ih]
        by_cases h3 : k2 = k
        · subst h3
          rw [if_pos rfl, if_pos rfl,
            lookup_cons_skip (fun hx => h2 hx) pv rest]
        · rw [if_neg h3, if_neg h3]

theorem lookup_append_assoc {α : Type} (l1 l2 : List (String × α)) (k : String) :
    (l1 ++ l2).lookup k =
      match l1.lookup k with
      | some w => some w
      | none => l2.lookup k := by
  induction l1 with
  | nil => simp [List.lookup]
  | cons p rest ih =>
    obtain ⟨pk, pv⟩ := p
    by_cases h : k = pk
    · subst h
      simp [List.cons_append, lookup_cons_hit]
    · simp only [List.cons_append, lookup_cons_skip h, ih]

theorem lookup_jsSet {α : Type} (o : List (String × α)) (k : String) (v : α)
    (k2 : String) :
    (jsSet o k v).lookup k2 = if k2 = k then some v else o.lookup k2 := by
  by_cases hs : (o.lookup k).isSome = true
  · rw [jsSet, if_pos hs, lookup_map_overwrite]
    simp [hs]
  · rw [jsSet, if_neg hs, lookup_append_assoc]
    have hn : o.lookup k = none := by
      cases hc : o.lookup k
      · rfl
      · rw [hc] at hs
        simp at hs
    by_cases h : k2 = k
    · subst h
      rw [hn]
      simp [lookup_cons_hit]
    · have hb : (k2 == k) = false := beq_eq_false_iff_ne.mpr h
      cases hc : o.lookup k2
      · simp [lookup_cons_skip h, List.lookup, hb, h]
      · simp [h]

theorem lookup_jsAssign {α : Type} (t u : List (String × α)) (k : String) :
    (jsAssign t u).lookup k =
      match lookupLast u k with
      | some w => some w
      | none => t.lookup k := by
  induction u generalizing t with
  | nil => simp [jsAssign, lookupLast, List.lookup]
  | cons p rest ih =>
    obtain ⟨pk, pv⟩ := p
    rw [show jsAssign t ((pk, pv) :: rest) = jsAssign (jsSet t pk pv) rest
      from rfl, ih]
    have hLL : lookupLast ((pk, pv) :: rest) k =
        match lookupLast rest k with
        | some w => some w
        | none => List.lookup k [(pk, pv)] := by
      unfold lookupLast
      rw [show ((pk, pv) :: rest).reverse = rest.reverse ++ [(pk, pv)]
        from by simp]
      exact lookup_append_assoc _ _ _
    rw [hLL]
    cases hr : lookupLast rest k with
    | some w => rfl
    | none =>
      rw [lookup_jsSet]
      by_cases h : k = pk
      · subst h
        simp [lookup_cons_hit]
      · have hb : (k == pk) = false := beq_eq_false_iff_ne.mpr h
        simp [lookup_cons_skip h, List.lookup, hb, h]

theorem lookup_jsAssignOpt {α : Type} (t : List (String × α))
    (src : Option (List (String × α))) (k : String) :
    (jsAssignOpt t src).lookup k =
      match src.bind (fun u => lookupLast u k) with
      | some w => some w
      | none => t.lookup k := by
  cases src with
  | none => rfl
  | some u => exact lookup_jsAssign t u k

theorem lookup_foldAssign (shaders : String → Option (List (String × Setter)))
    (defaults : List (String × Setter)) (ids : List String) (k : String) :
    (foldAssign shaders defaults ids).lookup k =
      match ids.reverse.findSome?
          (fun id => (shaders id).bind (fun u => lookupLast u k)) with
      | some w => some w
      | none => defaults.lookup k := by
  induction ids generalizing defaults with
  | nil => rfl
  | cons id rest ih =>
    rw [show foldAssign shaders defaults (id :: rest) =
      foldAssign shaders (jsAssignOpt defaults (shaders id)) rest from rfl, ih]
    rw [show (id :: rest).reverse = rest.reverse ++ [id] from by simp]
    rw [List.findSome?_append]
    cases hr : rest.reverse.findSome?
        (fun i => (shaders i).bind (fun u => lookupLast u k)) with
    | some w => rfl
    | none =>
      rw [lookup_jsAssignOpt]
      have h1 : List.findSome? (fun i => (shaders i).bind (fun u => lookupLast u k)) [id]
          = (shaders id).bind (fun u => lookupLast u k) := by
        cases hs : (shaders id).bind (fun u => lookupLast u k) <;>
          simp [List.findSome?, hs]
      rw [Option.none_or, h1]
      cases (shaders id).bind (fun u => lookupLast u k) <;> simp

theorem initProgram_ok_shape (env : GlEnv) (id v f : String)
    (evs : List Event) (prog : Program)
    (h : initProgram env id v f = (evs, Except.ok prog)) :
    prog = ⟨v, f⟩ ∧ evs = [Event.link id] ∧
    env.compileOk ShaderType.vertexStage v = true ∧
    env.compileOk ShaderType.fragmentStage f = true := by
  by_cases hv : env.compileOk ShaderType.vertexStage v = true
  · by_cases hf : env.compileOk ShaderType.fragmentStage f = true
    · rw [show initProgram env id v f = ([Event.link id], Except.ok ⟨v, f⟩)
        from by simp [initProgram, loadShader, hv, hf]] at h
      have h1 := congrArg Prod.fst h
      have h2 := congrArg Prod.snd h
      simp at h1 h2
      exact ⟨h2.symm, h1.symm, hv, hf⟩
    · rw [show initProgram env id v f =
        ([], Except.error ⟨"Cannot compile shader - " ++ id ++ ": "
          ++ env.infoLog ShaderType.fragmentStage f⟩)
        from by simp [initProgram, loadShader, hv, hf]] at h
      have h2 := congrArg Prod.snd h
      simp at h2
  · rw [show initProgram env id v f =
      ([], Except.error ⟨"Cannot compile shader - " ++ id ++ ": "
        ++ env.infoLog ShaderType.vertexStage v⟩)
      from by simp [initProgram, loadShader, hv]] at h
    have h2 := congrArg Prod.snd h
    simp at h2

theorem buildPassesGo_ok_spec (env : GlEnv)
    (shaders : String → Option (List (String × Setter))) (imageIndex : Nat) :
    ∀ (rest : List (String × String)) (index : Nat)
      (defaults : List (String × Setter)) (evs : List Event)
      (passes : List Pass),
      buildPassesGo env shaders imageIndex index defaults rest =
        (evs, Except.ok passes) →
      passes.length = rest.length ∧
      ∀ i pass, passes.get? i = some pass →
        ∃ src, rest.get? i = some src ∧
          pass.id = src.1 ∧
          pass.program = ⟨VERTEX_SHADER, src.2⟩ ∧
          pass.buffered = decide (index + i < imageIndex) ∧
          pass.uniformsArg =
            foldAssign shaders defaults ((rest.take (i + 1)).map Prod.fst) := by
  intro rest
  induction rest with
  | nil =>
    intro index defaults evs passes h
    rw [show buildPassesGo env shaders imageIndex index defaults [] =
      ([], Except.ok []) from rfl] at h
    have h2 := congrArg Prod.snd h
    simp at h2
    subst h2
    exact ⟨rfl, by intro i pass hget; simp at hget⟩
  | cons head tail ih =>
    intro index defaults evs passes h
    obtain ⟨id, fsrc⟩ := head
    rw [show buildPassesGo env shaders imageIndex index defaults
        ((id, fsrc) :: tail) =
      (match initProgram env id VERTEX_SHADER fsrc with
      | (evs0, .error e) => (evs0, .error e)
      | (evs0, .ok prog) =>
        match buildPassesGo env shaders imageIndex (index + 1)
            (jsAssignOpt defaults (shaders id)) tail with
        | (evs2, .error e) => (evs0 ++ evs2, .error e)
        | (evs2, .ok passes2) =>
          (evs0 ++ evs2, .ok
            ((⟨id, prog, jsAssignOpt defaults (shaders id),
              decide (index < imageIndex)⟩ : Pass) :: passes2)))
      from rfl] at h
    cases hip : initProgram env id VERTEX_SHADER fsrc with
    | mk evs0 r0 =>
      rw [hip] at h
      cases r0 with
      | error e => simp at h
      | ok prog =>
        cases hrec : buildPassesGo env shaders imageIndex (index + 1)
            (jsAssignOpt defaults (shaders id)) tail with
        | mk evs2 r2 =>
          rw [hrec] at h
          cases r2 with
          | error e => simp at h
          | ok passes2 =>
            have h2 := congrArg Prod.snd h
            simp at h2
            obtain ⟨hprog, -, -, hcomp⟩ := initProgram_ok_shape env id
              VERTEX_SHADER fsrc evs0 prog hip
            subst hprog
            subst h2
            obtain ⟨hlen, hspec⟩ := ih (index + 1)
              (jsAssignOpt defaults (shaders id)) evs2 passes2 hrec
            refine ⟨by simp [hlen], ?_⟩
            intro i pass hget
            cases i with
            | zero =>
              simp at hget
              subst hget
              refine ⟨(id, fsrc), rfl, rfl, rfl, ?_, ?_⟩
              · norm_num
              · rfl
            | succ i2 =>
              simp only [List.get?_cons_succ] at hget
              obtain ⟨src, hsrc, hid, hprg, hbuf, huni⟩ :=
                hspec i2 pass hget
              refine ⟨src, hsrc, hid, hprg, ?_, ?_⟩
              · have harith : index + 1 + i2 = index + (i2 + 1) := by omega
                rw [harith] at hbuf
                exact hbuf
              · rw [huni]
                rfl

theorem buildPassesGo_all_ok (env : GlEnv)
    (shaders : String → Option (List (String × Setter))) (imageIndex : Nat) :
    ∀ (rest : List (String × String)) (index : Nat)
      (defaults : List (String × Setter)),
      (∀ pr ∈ rest, passCompileOk env pr.2 = true) →
      ∃ evs passes,
        buildPassesGo env shaders imageIndex index defaults rest =
          (evs, Except.ok passes) := by
  intro rest
  induction rest with
  | nil => exact fun index defaults h => ⟨[], [], rfl⟩
  | cons head tail ih =>
    intro index defaults h
    obtain ⟨id, fsrc⟩ := head
    have hc := h (id, fsrc) (List.mem_cons_self _ _)
    simp only [passCompileOk, Bool.and_eq_true] at hc
    obtain ⟨hv, hf⟩ := hc
    obtain ⟨evs2, passes2, hrec⟩ := ih (index + 1)
      (jsAssignOpt defaults (shaders id))
      (fun pr hpr => h pr (List.mem_cons_of_mem _ hpr))
    refine ⟨[Event.link id] ++ evs2,
      ⟨id, ⟨VERTEX_SHADER, fsrc⟩, jsAssignOpt defaults (shaders id),
        decide (index < imageIndex)⟩ :: passes2, ?_⟩
    rw [show buildPassesGo env shaders imageIndex index defaults
        ((id, fsrc) :: tail) =
      (match initProgram env id VERTEX_SHADER fsrc with
      | (evs0, .error e) => (evs0, .error e)
      | (evs0, .ok prog) =>
        match buildPassesGo env shaders imageIndex (index + 1)
            (jsAssignOpt defaults (shaders id)) tail with
        | (evs2, .error e) => (evs0 ++ evs2, .error e)
        | (evs2, .ok passes2) =>
          (evs0 ++ evs2, .ok
            ((⟨id, prog, jsAssignOpt defaults (shaders id),
              decide (index < imageIndex)⟩ : Pass) :: passes2)))
      from rfl]
    rw [show initProgram env id VERTEX_SHADER fsrc =
      ([Event.link id], Except.ok ⟨VERTEX_SHADER, fsrc⟩)
      from by simp [initProgram, loadShader, hv, hf]]
    rw [hrec]

theorem buildPassesGo_firstFail (env : GlEnv)
    (shaders : String → Option (List (String × Setter))) (imageIndex : Nat) :
    ∀ (rest : List (String × String)) (index : Nat)
      (defaults : List (String × Setter)) (j : Nat) (prj : String × String),
      rest.get? j = some prj →
      (∀ m pr, m < j → rest.get? m = some pr →
        passCompileOk env pr.2 = true) →
      passCompileOk env prj.2 = false →
      ∃ evs,
        buildPassesGo env shaders imageIndex index defaults rest =
          (evs, Except.error
            ⟨"Cannot compile shader - " ++ prj.1 ++ ": " ++
              (if env.compileOk ShaderType.vertexStage VERTEX_SHADER = true
              then env.infoLog ShaderType.fragmentStage prj.2
              else env.infoLog ShaderType.vertexStage VERTEX_SHADER)⟩) ∧
        ∀ e ∈ evs, ∃ id2, e = Event.link id2 ∧
          id2 ∈ (rest.take j).map Prod.fst := by
  intro rest
  induction rest with
  | nil =>
    intro index defaults j prj hj h1 h2
    simp at hj
  | cons head tail ih =>
    intro index defaults j prj hj h1 h2
    obtain ⟨id, fsrc⟩ := head
    rw [show buildPassesGo env shaders imageIndex index defaults
        ((id, fsrc) :: tail) =
      (match initProgram env id VERTEX_SHADER fsrc with
      | (evs0, .error e) => (evs0, .error e)
      | (evs0, .ok prog) =>
        match buildPassesGo env shaders imageIndex (index + 1)
            (jsAssignOpt defaults (shaders id)) tail with
        | (evs2, .error e) => (evs0 ++ evs2, .error e)
        | (evs2, .ok passes2) =>
          (evs0 ++ evs2, .ok
            ((⟨id, prog, jsAssignOpt defaults (shaders id),
              decide (index < imageIndex)⟩ : Pass) :: passes2)))
      from rfl]
    cases j with
    | zero =>
      simp at hj
      have h2f : passCompileOk env fsrc = false := by
        rw [show prj.2 = fsrc from by rw [← hj]] at h2
        exact h2
      by_cases hv : env.compileOk ShaderType.vertexStage VERTEX_SHADER = true
      · have hf : env.compileOk ShaderType.fragmentStage fsrc = false := by
          unfold passCompileOk at h2f
          rw [hv] at h2f
          simpa using h2f
        refine ⟨[], ?_, by simp⟩
        rw [show initProgram env id VERTEX_SHADER fsrc =
          ([], Except.error ⟨"Cannot compile shader - " ++ id ++ ": "
            ++ env.infoLog ShaderType.fragmentStage fsrc⟩)
          from by simp [initProgram, loadShader, hv, hf]]
        rw [← hj]
        simp [hv]
      · have hv2 : env.compileOk ShaderType.vertexStage VERTEX_SHADER
            = false := by simpa using hv
        refine ⟨[], ?_, by simp⟩
        rw [show initProgram env id VERTEX_SHADER fsrc =
          ([], Except.error ⟨"Cannot compile shader - " ++ id ++ ": "
            ++ env.infoLog ShaderType.vertexStage VERTEX_SHADER⟩)
          from by simp [initProgram, loadShader, hv2]]
        rw [← hj]
        simp [hv2]
    | succ j2 =>
      simp only [List.get?_cons_succ] at hj
      have hc := h1 0 (id, fsrc) (by omega) rfl
      simp only [passCompileOk, Bool.and_eq_true] at hc
      obtain ⟨hv, hf⟩ := hc
      obtain ⟨evs2, hres, hlinks⟩ := ih (index + 1)
        (jsAssignOpt defaults (shaders id)) j2 prj hj
        (fun m pr hm hpr => h1 (m + 1) pr (by omega) (by simpa using hpr))
        h2
      refine ⟨[Event.link id] ++ evs2, ?_, ?_⟩
      · rw [show initProgram env id VERTEX_SHADER fsrc =
          ([Event.link id], Except.ok ⟨VERTEX_SHADER, fsrc⟩)
          from by simp [initProgram, loadShader, hv, hf]]
        rw [hres]
      · intro e he
        rcases List.mem_append.mp he with he | he
        · rcases List.mem_singleton.mp he with rfl
          exact ⟨id, rfl, by simp⟩
        · obtain ⟨id2, rfl, hid2⟩ := hlinks e he
          refine ⟨id2, rfl, ?_⟩
          rw [show ((id, fsrc) :: tail).take (j2 + 1) =
            (id, fsrc) :: tail.take j2 from rfl]
          simp only [List.map_cons]
          exact List.mem_cons_of_mem _ hid2

/-- C5: for every ordered source mapping, a successful setup constructs
exactly as many pass wrappers as sources, in supply order (the pass at index
`i` carries the `i`-th source id), and the pass at index `i` is buffered iff
`i < n - 1`; in particular the pass at the last index is non-buffered. -/
theorem c5_buffered_iff_not_last (env : GlEnv)
    (shaders : String → Option (List (String × Setter)))
    (sources : List (String × String)) (evs : List Event)
    (passes : List Pass)
    (h : buildPasses env shaders sources = (evs, Except.ok passes)) :
    passes.length = sources.length ∧
    (∀ i pass, passes.get? i = some pass →
      ∃ src, sources.get? i = some src ∧ pass.id = src.1 ∧
        (pass.buffered = true ↔ i < sources.length - 1)) ∧
    (∀ pass, passes.get? (sources.length - 1) = some pass →
      pass.buffered = false) := by
  obtain ⟨hlen, hspec⟩ := buildPassesGo_ok_spec env shaders
    (sources.length - 1) sources 0 defaultUniforms evs passes h
  refine ⟨hlen, ?_, ?_⟩
  · intro i pass hget
    obtain ⟨src, hsrc, hid, -, hbuf, -⟩ := hspec i pass hget
    refine ⟨src, hsrc, hid, ?_⟩
    rw [hbuf]
    simp
  · intro pass hget
    obtain ⟨src, hsrc, hid, -, hbuf, -⟩ := hspec _ pass hget
    rw [hbuf]
    simp

theorem c5_buffered_iff_not_last_witness :
    (⟨"image", ⟨VERTEX_SHADER, "fimg"⟩, defaultUniforms, false⟩ : Pass).buffered
      = false :=
  (c5_buffered_iff_not_last envAllOk noShaders srcTwo
    [Event.link "a", Event.link "image"]
    [⟨"a", ⟨VERTEX_SHADER, "fa"⟩, defaultUniforms, true⟩,
     ⟨"image", ⟨VERTEX_SHADER, "fimg"⟩, defaultUniforms, false⟩]
    rfl).2.2
    ⟨"image", ⟨VERTEX_SHADER, "fimg"⟩, defaultUniforms, false⟩ rfl

/-- C10: the uniform-setter table handed to the pass at index `i` is the
shared built-in table after the in-place merges of passes `0..i`: a lookup
finds the setter of the latest pass `j ≤ i` that configures that name, and
otherwise the built-in entry; hence the four built-ins are always present,
and every name configured by any earlier pass `j < i` (or by pass `i`) is
present — the table is not limited to pass `i`'s own configuration
record. -/
theorem c10_uniform_table_accumulates (env : GlEnv)
    (shaders : String → Option (List (String × Setter)))
    (sources : List (String × String)) (evs : List Event)
    (passes : List Pass)
    (h : buildPasses env shaders sources = (evs, Except.ok passes))
    (i : Nat) (pass : Pass) (hget : passes.get? i = some pass)
    (name : String) :
    (pass.uniformsArg.lookup name =
      match ((sources.take (i + 1)).map Prod.fst).reverse.findSome?
          (fun id => (shaders id).bind (fun u => lookupLast u name)) with
      | some w => some w
      | none => defaultUniforms.lookup name) ∧
    (∀ v, defaultUniforms.lookup name = some v →
      (pass.uniformsArg.lookup name).isSome = true) ∧
    (∀ j src u v, j ≤ i → sources.get? j = some src →
      shaders src.1 = some u → lookupLast u name = some v →
      (pass.uniformsArg.lookup name).isSome = true) := by
  obtain ⟨hlen, hspec⟩ := buildPassesGo_ok_spec env shaders
    (sources.length - 1) sources 0 defaultUniforms evs passes h
  obtain ⟨src0, hsrc0, -, -, -, huni⟩ := hspec i pass hget
  have hchar : pass.uniformsArg.lookup name =
      match ((sources.take (i + 1)).map Prod.fst).reverse.findSome?
          (fun id => (shaders id).bind (fun u => lookupLast u name)) with
      | some w => some w
      | none => defaultUniforms.lookup name := by
    rw [huni]
    exact lookup_foldAssign shaders defaultUniforms _ name
  refine ⟨hchar, ?_, ?_⟩
  · intro v hv
    rw [hchar]
    cases ((sources.take (i + 1)).map Prod.fst).reverse.findSome?
        (fun id => (shaders id).bind (fun u => lookupLast u name)) <;>
      simp [hv]
  · intro j src u v hji hsrc hsh hlu
    rw [hchar]
    have hmem : src.1 ∈ ((sources.take (i + 1)).map Prod.fst).reverse := by
      rw [List.mem_reverse]
      refine List.mem_map.mpr ⟨src, ?_, rfl⟩
      have : (sources.take (i + 1)).get? j = some src := by
        rw [List.get?_take (by omega : j < i + 1)]
        exact hsrc
      exact List.get?_mem this
    cases hfs : ((sources.take (i + 1)).map Prod.fst).reverse.findSome?
        (fun id => (shaders id).bind (fun u => lookupLast u name)) with
    | some w => simp
    | none =>
      exfalso
      have := List.findSome?_eq_none_iff.mp hfs src.1 hmem
      rw [hsh] at this
      simp [hlu] at this

theorem c10_uniform_table_accumulates_witness :
    ((([("R", Setter.builtinR), ("T", Setter.builtinT),
        ("F", Setter.builtinF), ("D", Setter.builtinD),
        ("U", Setter.user 7)] : List (String × Setter)).lookup "U").isSome
      = true) :=
  (c10_uniform_table_accumulates envAllOk shadersU srcTwo
    [Event.link "a", Event.link "image"]
    [⟨"a", ⟨VERTEX_SHADER, "fa"⟩,
      [("R", Setter.builtinR), ("T", Setter.builtinT), ("F", Setter.builtinF),
       ("D", Setter.builtinD), ("U", Setter.user 7)], true⟩,
     ⟨"image", ⟨VERTEX_SHADER, "fimg"⟩,
      [("R", Setter.builtinR), ("T", Setter.builtinT), ("F", Setter.builtinF),
       ("D", Setter.builtinD), ("U", Setter.user 7)], false⟩]
    rfl 1
    ⟨"image", ⟨VERTEX_SHADER, "fimg"⟩,
      [("R", Setter.builtinR), ("T", Setter.builtinT), ("F", Setter.builtinF),
       ("D", Setter.builtinD), ("U", Setter.user 7)], false⟩
    rfl "U").2.2 0 ("a", "fa") [("U", Setter.user 7)] (Setter.user 7)
    (by omega) rfl rfl rfl

/-- C6: when no GPU context can be obtained, or when a required capability
extension is unavailable, the run fails during construction with a
configuration error naming the missing capability (the unsupported context
or the missing extension), and the emitted trace contains no draw: drawing
never starts. -/
theorem c6_construction_fails_named (env : GlEnv) (canvasName : String)
    (shaders : String → Option (List (String × Setter)))
    (sources : List (String × String)) (inp : Nat → IterInput) (iters : Nat) :
    (env.webgl2 = false → env.webgl1 = false →
      (doShadeRun env canvasName shaders sources inp iters).2 =
        Except.error
          ⟨"webgl context not supported on supplied canvas element: "
            ++ canvasName⟩ ∧
      ∀ e ∈ (doShadeRun env canvasName shaders sources inp iters).1,
        e.isDraw = false) ∧
    (env.webgl2 = true → "EXT_color_buffer_float" ∉ env.extensions →
      (doShadeRun env canvasName shaders sources inp iters).2 =
        Except.error ⟨"EXT_color_buffer_float extension is not supported"⟩ ∧
      ∀ e ∈ (doShadeRun env canvasName shaders sources inp iters).1,
        e.isDraw = false) ∧
    (env.webgl2 = false → env.webgl1 = true →
      "OES_texture_half_float" ∉ env.extensions →
      (doShadeRun env canvasName shaders sources inp iters).2 =
        Except.error ⟨"OES_texture_half_float extension is not supported"⟩ ∧
      ∀ e ∈ (doShadeRun env canvasName shaders sources inp iters).1,
        e.isDraw = false) ∧
    (env.webgl2 = false → env.webgl1 = true →
      "OES_texture_half_float" ∈ env.extensions →
      "OES_texture_half_float_linear" ∉ env.extensions →
      (doShadeRun env canvasName shaders sources inp iters).2 =
        Except.error
          ⟨"OES_texture_half_float_linear extension is not supported"⟩ ∧
      ∀ e ∈ (doShadeRun env canvasName shaders sources inp iters).1,
        e.isDraw = false) := by
  refine ⟨?_, ?_, ?_, ?_⟩
  · intro h1 h2
    have hc : glWrapperConstruct env canvasName = Except.error
        ⟨"webgl context not supported on supplied canvas element: "
          ++ canvasName⟩ := by
      simp [glWrapperConstruct, getGlContext, h1, h2]
    exact ⟨by simp [doShadeRun, hc], by simp [doShadeRun, hc]⟩
  · intro h1 h2
    have hc : glWrapperConstruct env canvasName = Except.error
        ⟨"EXT_color_buffer_float extension is not supported"⟩ := by
      simp [glWrapperConstruct, getGlContext, mkStrategy,
        getExtensionChecked, h1, h2]
    exact ⟨by simp [doShadeRun, hc], by simp [doShadeRun, hc]⟩
  · intro h1 h2 h3
    have hc : glWrapperConstruct env canvasName = Except.error
        ⟨"OES_texture_half_float extension is not supported"⟩ := by
      simp [glWrapperConstruct, getGlContext, mkStrategy,
        getExtensionChecked, h1, h2, h3]
    exact ⟨by simp [doShadeRun, hc], by simp [doShadeRun, hc]⟩
  · intro h1 h2 h3 h4
    have hc : glWrapperConstruct env canvasName = Except.error
        ⟨"OES_texture_half_float_linear extension is not supported"⟩ := by
      simp [glWrapperConstruct, getGlContext, mkStrategy,
        getExtensionChecked, h1, h2, h3, h4]
    exact ⟨by simp [doShadeRun, hc], by simp [doShadeRun, hc]⟩

/-- C7: when the first failing pass's vertex or fragment shader fails to
compile (all passes before it compile), setup raises a shader-compilation
error whose message is the fixed prefix, that pass's identifier and the
driver info log of the failing stage; that pass's program is never linked
(no `link` event for its id is emitted), and no draw is ever invoked on any
pass. -/
theorem c7_compile_error_named_before_link (env : GlEnv)
    (canvasName : String)
    (shaders : String → Option (List (String × Setter)))
    (sources : List (String × String)) (inp : Nat → IterInput) (iters : Nat)
    (j : Nat) (srcj : String × String)
    (hj : sources.get? j = some srcj)
    (hprev : ∀ m pr, m < j → sources.get? m = some pr →
      passCompileOk env pr.2 = true)
    (hfail : passCompileOk env srcj.2 = false)
    (hnd : (sources.map Prod.fst).Nodup)
    (hctx : ∃ ck, glWrapperConstruct env canvasName = Except.ok ck) :
    (doShadeRun env canvasName shaders sources inp iters).2 =
      Except.error
        ⟨"Cannot compile shader - " ++ srcj.1 ++ ": " ++
          (if env.compileOk ShaderType.vertexStage VERTEX_SHADER = true
          then env.infoLog ShaderType.fragmentStage srcj.2
          else env.infoLog ShaderType.vertexStage VERTEX_SHADER)⟩ ∧
    Event.link srcj.1 ∉ (doShadeRun env canvasName shaders sources inp iters).1 ∧
    ∀ e ∈ (doShadeRun env canvasName shaders sources inp iters).1,
      e.isDraw = false := by
  obtain ⟨ck, hck⟩ := hctx
  obtain ⟨evs, hbuild, hlinks⟩ := buildPassesGo_firstFail env shaders
    (sources.length - 1) sources 0 defaultUniforms j srcj hj hprev hfail
  have hrun : doShadeRun env canvasName shaders sources inp iters =
      (evs, Except.error
        ⟨"Cannot compile shader - " ++ srcj.1 ++ ": " ++
          (if env.compileOk ShaderType.vertexStage VERTEX_SHADER = true
          then env.infoLog ShaderType.fragmentStage srcj.2
          else env.infoLog ShaderType.vertexStage VERTEX_SHADER)⟩) := by
    simp [doShadeRun, hck, buildPasses, hbuild]
  rw [hrun]
  refine ⟨rfl, ?_, ?_⟩
  · intro hmem
    obtain ⟨id2, heq, hid2⟩ := hlinks _ hmem
    injection heq with h3
    subst h3
    have hid3 : srcj.1 ∈ ((sources.map Prod.fst).take j) := by
      rw [← List.map_take]
      exact hid2
    obtain ⟨m, hm⟩ := List.get?_of_mem hid3
    have hmlen : m < ((sources.map Prod.fst).take j).length :=
      (List.get?_eq_some.mp hm).1
    have hmj : m < j := lt_of_lt_of_le hmlen (by simp)
    rw [List.get?_take hmj] at hm
    have hj2 : (sources.map Prod.fst).get? j = some srcj.1 := by
      rw [List.get?_map, hj]
      rfl
    have hmlen2 : m < (sources.map Prod.fst).length :=
      (List.get?_eq_some.mp hm).1
    have : m = j := List.get?_inj hmlen2 hnd (by rw [hm, hj2])
    omega
  · intro e he
    obtain ⟨id2, heq, -⟩ := hlinks e he
    simp [heq, Event.isDraw]

theorem c7_compile_error_named_before_link_witness :
    (doShadeRun envFragFail "canvas" noShaders srcTwo obsA 1).2 =
      Except.error ⟨"Cannot compile shader - a: bad fragment"⟩ :=
  (c7_compile_error_named_before_link envFragFail "canvas" noShaders srcTwo
    obsA 1 0 ("a", "fa") rfl
    (fun m pr hm _ => absurd hm (Nat.not_lt_zero m)) rfl (by decide)
    ⟨CtxKind.ctx2, rfl⟩).1

/-- C8 counterexample: a run in which both shaders of every pass compile but
every program fails to link completes setup with no error and proceeds to
draw — `initProgram` calls `linkProgram` and returns the program without
ever checking `LINK_STATUS`, so no rendering error is raised during setup
for a link failure. -/
theorem c8_counterexample_link_failure_ignored :
    envLinkFail.linkStatus VERTEX_SHADER "fimg" = false ∧
    (doShadeRun envLinkFail "canvas" noShaders srcTwo obsA 1).2 =
      Except.ok () ∧
    ∃ s0, Event.drawPass 0 s0 ∈
      (doShadeRun envLinkFail "canvas" noShaders srcTwo obsA 1).1 := by
  refine ⟨rfl, rfl, ⟨preDrawState initialAnimState (obsA 0), ?_⟩⟩
  have hmem : Event.drawPass 0 (preDrawState initialAnimState (obsA 0)) ∈
      iterTrace 2 obsA 0 :=
    mem_animate_drawPass.mpr ⟨by omega, rfl⟩
  have h2 : animRunEvents 2 obsA 1 = iterTrace 2 obsA 0 ++ [] := rfl
  show Event.drawPass 0 (preDrawState initialAnimState (obsA 0)) ∈
    ([Event.link "a", Event.link "image"] ++ animRunEvents 2 obsA 1)
  rw [h2]
  exact List.mem_append.mpr (Or.inr (List.mem_append.mpr (Or.inl hmem)))

/-- C8 amended: link status is never checked — for every pass list whose
shaders all compile, setup completes and the run returns no error, no
matter what the link status of every program is. -/
theorem c8_amended_link_status_never_checked (env : GlEnv)
    (canvasName : String)
    (shaders : String → Option (List (String × Setter)))
    (sources : List (String × String)) (inp : Nat → IterInput) (iters : Nat)
    (hctx : ∃ ck, glWrapperConstruct env canvasName = Except.ok ck)
    (hc : ∀ pr ∈ sources, passCompileOk env pr.2 = true) :
    ∀ g : String → String → Bool,
      (doShadeRun { env with linkStatus := g } canvasName shaders sources
        inp iters).2 = Except.ok () := by
  intro g
  obtain ⟨ck, hck⟩ := hctx
  have hck2 : glWrapperConstruct { env with linkStatus := g } canvasName =
      Except.ok ck := hck
  obtain ⟨evs, passes, hbuild⟩ := buildPassesGo_all_ok
    { env with linkStatus := g } shaders (sources.length - 1) sources 0
    defaultUniforms (fun pr hpr => hc pr hpr)
  simp [doShadeRun, hck2, buildPasses, hbuild]

theorem c8_amended_link_status_never_checked_witness :
    (doShadeRun { envAllOk with linkStatus := fun _ _ => false } "canvas"
      noShaders srcTwo obsA 1).2 = Except.ok () :=
  c8_amended_link_status_never_checked envAllOk "canvas" noShaders srcTwo
    obsA 1 ⟨CtxKind.ctx2, rfl⟩ (by decide) (fun _ _ => false)
